import Mathlib

/-!
# Verification of the Transcript Memory Engine RAG core

Shallow embedding of the retrieval-and-context-assembly engine:

* `src/transcript_engine/query/retriever.py` (`SimilarityRetriever.retrieve`,
  `_get_today_filter`, `TODAY_REGEX`),
* `src/transcript_engine/query/rag_service.py` (`RAGService.answer_question`),
* the relational-store helpers it uses from
  `src/transcript_engine/database/crud.py`.

Conventions of the embedding:

* UTC instants are `Nat` (seconds).  The code stores ISO-8601 UTC strings and
  compares them lexicographically; all stored strings come from
  `datetime.isoformat()` of aware UTC datetimes, for which lexicographic
  string order coincides with chronological order, so comparisons on `Nat`
  are order-faithful.  `datetime.min` (the sort default for a missing
  timestamp) is represented by `0`, the least element.
* The tiktoken tokenizer is an uninterpreted parameter `tc : String → Nat`;
  every theorem quantifies over it.
* The embedding model, the vector store and the LLM are uninterpreted
  function parameters (`embed`, `search`, `gen`); failures of the LLM call
  are modelled by `Except`.
* Python dicts holding the retrieved candidates are modelled by the record
  `Candidate` (keys `id`, `content`, `metadata.transcript_id`,
  `metadata.transcript_start_time_iso`).  The chunk-level `start_time` /
  `end_time` offset entries of the metadata are carried by no computation of
  the engine (selection, sorting, rendering all ignore them) and are omitted.
* `AnswerOutput.llmPrompt` instruments whether (and with which prompt) the
  generation interface was invoked: `none` means `llm.generate` was never
  called on that path.
-/

namespace TranscriptEngine

/-! ## Python string primitives used by the engine -/

/-- Python `str.lower()` (ASCII-level model). -/
def pyLower (s : String) : String := String.mk (s.data.map Char.toLower)

/-- Python `str.strip()`: remove leading and trailing whitespace. -/
def pyStrip (s : String) : String :=
  String.mk (((s.data.dropWhile Char.isWhitespace).reverse.dropWhile Char.isWhitespace).reverse)

/-- Python `str.replace("?", "")`. -/
def removeQuestionMarks (s : String) : String :=
  String.mk (s.data.filter (fun c => c ≠ '?'))

/-- Python `str.capitalize()`: first character upper-cased, the rest lower-cased. -/
def pyCapitalize (s : String) : String :=
  match s.data with
  | [] => ""
  | c :: rest => String.mk (c.toUpper :: rest.map Char.toLower)

/-- A regex word character (`\w`), ASCII-level: letters, digits, underscore. -/
def isWordChar (c : Char) : Bool := c.isAlphanum || c = '_'

/-- Does the character list start with the word `today` (case-insensitive)
followed by a word boundary? -/
def startsWithToday : List Char → Bool
  | a :: b :: c :: d :: e :: rest =>
      a.toLower = 't' && b.toLower = 'o' && c.toLower = 'd' && d.toLower = 'a' &&
      e.toLower = 'y' &&
      (match rest with
       | [] => true
       | f :: _ => !isWordChar f)
  | _ => false

/-- Scan for a whole-word occurrence of `today`; the boolean argument records
whether the previous character was a word character (left word boundary). -/
def todayScan : Bool → List Char → Bool
  | _, [] => false
  | prevW, c :: rest =>
      (!prevW && startsWithToday (c :: rest)) || todayScan (isWordChar c) rest

/-- `TODAY_REGEX = re.compile(r'\btoday\b', re.IGNORECASE)`; this is
`bool(TODAY_REGEX.search(s))`. -/
def containsWordToday (s : String) : Bool := todayScan false s.data

/-! ## Data model -/

/-- A stored transcript row (`transcripts` table); only the columns the
engine reads are modelled. `start_time` is `none` for a SQL NULL. -/
structure Transcript where
  id : Nat
  start_time : Option Nat
deriving DecidableEq

/-- A stored chunk row (`chunks` table); only the columns the engine reads
are modelled.  `id` is the primary key. -/
structure Chunk where
  id : Nat
  transcript_id : Nat
  content : String
deriving DecidableEq

/-- A retrieved-candidate dictionary (`{id, content, metadata}`):
`transcript_id` is `metadata["transcript_id"]` when it is an int,
`tStart` is `metadata["transcript_start_time_iso"]` when present. -/
structure Candidate where
  id : String
  content : String
  transcript_id : Option Nat
  tStart : Option Nat
deriving DecidableEq

/-- A chat message (`database/models.py`, `ChatMessage`). -/
structure ChatMessage where
  role : String
  content : String
deriving DecidableEq

/-- The settings consumed by `answer_question`
(`core/config.py`: `model_context_window`, `answer_buffer_tokens`,
`context_target_tokens`). Python ints are modelled by `Int`. -/
structure Settings where
  model_context_window : Int
  answer_buffer_tokens : Int
  context_target_tokens : Option Int
deriving DecidableEq

/-- The relational store visible to the engine. -/
structure DB where
  transcripts : List Transcript
  chunks : List Chunk
deriving DecidableEq

/-- A value of a Chroma metadata filter entry: the `{"$in": ids}` operator
used by `_get_today_filter`, or an opaque caller-supplied value. -/
inductive FilterVal where
  | inIds (ids : List Nat)
  | tag (n : Nat)
deriving DecidableEq

/-- A Chroma metadata filter: a Python dict, modelled as a key/value list. -/
abbrev ChromaFilter := List (String × FilterVal)

/-! ## Relational-store functions (`database/crud.py`) -/

/-- Seconds per UTC day. -/
def dayLen : Nat := 86400

/-- Start of the UTC day containing the instant `now`
(`datetime(now.year, now.month, now.day, 0, 0, 0, tzinfo=utc)`). -/
def startOfDay (now : Nat) : Nat := now / dayLen * dayLen

/-- SQL predicate `start_time >= a AND start_time < b` (NULL fails). -/
def inRange (a b : Nat) (t : Option Nat) : Bool :=
  match t with
  | some x => decide (a ≤ x) && decide (x < b)
  | none => false

/-- `get_transcript_ids_by_date_range`: ids of transcripts whose
`start_time` lies in `[a, b)`, ordered by `start_time` (ascending). -/
def get_transcript_ids_by_date_range (db : DB) (a b : Nat) : List Nat :=
  ((db.transcripts.filter fun tr => inRange a b tr.start_time).insertionSort
      (fun x y => x.start_time.getD 0 ≤ y.start_time.getD 0)).map (·.id)

/-- `ORDER BY start_time DESC, id DESC`: does `a` come strictly before `b`? -/
def betterTranscript (a b : Transcript) : Bool :=
  decide (b.start_time.getD 0 < a.start_time.getD 0) ||
    (decide (a.start_time.getD 0 = b.start_time.getD 0) && decide (b.id < a.id))

/-- `get_latest_transcript_id_for_today`: `LIMIT 1` of the transcripts with
`start_time` in `[start-of-day, now)` ordered by `start_time DESC, id DESC`. -/
def get_latest_transcript_id_for_today (db : DB) (now : Nat) : Option Nat :=
  let sod := startOfDay now
  ((db.transcripts.filter fun tr => inRange sod now tr.start_time).foldl
      (fun acc tr =>
        match acc with
        | none => some tr
        | some b => if betterTranscript tr b then some tr else some b)
      none).map (·.id)

/-- `get_chunks_by_transcript_id`: all chunks of a transcript,
`ORDER BY id ASC`. -/
def get_chunks_by_transcript_id (db : DB) (tid : Nat) : List Chunk :=
  (db.chunks.filter fun c => c.transcript_id = tid).insertionSort
    (fun a b => a.id ≤ b.id)

/-- `get_transcript_by_id`: first row with the given primary key. -/
def get_transcript_by_id (db : DB) (tid : Nat) : Option Transcript :=
  db.transcripts.find? fun tr => tr.id = tid

/-- `get_distinct_transcript_dates`: the distinct UTC days (abstracted as day
numbers `t / dayLen`) of non-NULL transcript start times, ascending. -/
def get_distinct_transcript_dates (db : DB) : List Nat :=
  (((db.transcripts.filterMap (·.start_time)).map (· / dayLen)).insertionSort
      (fun a b => a ≤ b)).dedup

/-! ## Similarity retriever (`query/retriever.py`) -/

/-- `SimilarityRetriever._get_today_filter`: the transcript ids of the UTC
day containing `now`; `none` when there are none (then no filter applies). -/
def getTodayFilter (db : DB) (now : Nat) : Option ChromaFilter :=
  let sod := startOfDay now
  let ids := get_transcript_ids_by_date_range db sod (sod + dayLen)
  if ids = [] then none
  else some [("transcript_id", FilterVal.inIds ids)]

/-- Python `dict.update`: entries of `upd` overwrite entries of `base`
(keeping their original position); new keys are appended. -/
def dictUpdate (base upd : ChromaFilter) : ChromaFilter :=
  (base.map fun kv =>
    match upd.find? (fun kv2 => kv2.fst = kv.fst) with
    | some kv2 => (kv.fst, kv2.snd)
    | none => kv) ++
  upd.filter (fun kv2 => !(base.any (fun kv => kv.fst = kv2.fst)))

/-- `SimilarityRetriever.retrieve`.  The merged `final_filter` (caller filter
updated with the today filter when the query carries the recency cue) is
computed exactly as in the source but — as in the source — never passed on:
the vector store is queried with the unconditionally recomputed today filter
(`filter_dict`). -/
def retrieve (search : List Int → Nat → Option ChromaFilter → List Candidate)
    (embed : String → List Int) (db : DB) (now : Nat)
    (query_text : String) (k : Nat)
    (filter_metadata : Option ChromaFilter) : List Candidate :=
  if query_text = "" then []
  else
    let base := filter_metadata.getD []
    let final_filter :=
      if containsWordToday query_text then
        match getTodayFilter db now with
        | some tf => dictUpdate base tf
        | none => base
      else base
    -- `final_filter` is dead code in the source: the call below ignores it.
    let _unused := final_filter
    let filter_dict := getTodayFilter db now
    search (embed query_text) k filter_dict

/-! ## RAG service (`query/rag_service.py`) -/

/-- The fixed system prompt (`SYSTEM_PROMPT_TEMPLATE`). -/
def SYSTEM_PROMPT_TEMPLATE : String :=
  "System: You are an AI assistant specialized in analyzing conversation transcripts to answer user questions thoroughly. Your task is to carefully review the user's question, the chat history, and the provided transcript excerpts to synthesize a comprehensive, well-structured answer.\n\n**IMPORTANT RULES:**\n- **Synthesize Information:** Combine insights from *all* relevant transcript excerpts and chat history to directly answer the user's question. Do not simply list excerpts.\n- **Identify Key Themes:** Structure your answer around the main themes or sub-topics found in the relevant excerpts related to the question. Use clear headings or distinct paragraphs for different themes if appropriate.\n- **Include Specific Details & Quotes:** Incorporate specific details, examples, and 1-2 concise, impactful quotes from the transcripts to support your points. Cite the source conversation/transcript ID if available, but prioritize flow over excessive citation.\n- **Base Answer *Solely* on Provided Text:** Do *not* use any external knowledge. Your entire answer must be derived from the 'Chat History' and 'Transcript Excerpts' provided below.\n- **Handle Missing Information:** If the answer cannot be synthesized from the provided text, state that clearly (e.g., \"Based on the provided transcripts, I don't have enough information to answer that specific point.\"). Do not speculate.\n- **Address Recency Queries:** If asked about the \"latest\" or \"last\" information (e.g., \"last thing said today\"), examine the provided Transcript Excerpts. Identify the excerpt that seems most recent based on its content or any associated metadata (like Transcript ID, if numerical IDs generally increase over time). State what that excerpt says, mentioning it appears to be the most recent *within the provided context*. Avoid definitive statements about it being the absolute last thing said if the context is limited.\n- **Concluding Highlights (Optional but Recommended):** If appropriate for the question, end your response with a brief bulleted list summarizing the key takeaways or highlights related to the query.\n- **Tone:** Be informative, objective, and helpful.\n"

/-- The ChromaStore-style id of a chunk: `f"{transcript_id}_{chunk_index}"`. -/
def mkChromaId (tid idx : Nat) : String := toString tid ++ "_" ++ toString idx

/-- The dictionary built for an explicitly fetched chunk of the latest
transcript (metadata `transcript_id` plus, when not `None`, the parent
transcript start time). -/
def chunkToCandidate (pStart : Option Nat) (cid : String) (c : Chunk) : Candidate :=
  { id := cid, content := c.content, transcript_id := some c.transcript_id,
    tStart := pStart }

/-- The injection loop of `answer_question`: walk the chunks of the latest
transcript; for each, compute its ChromaStore id
(`{tid}_{latest_transcript_chunks.index(chunk_obj)}`); skip it when that id
was already seen, otherwise emit a candidate and remember the id. -/
def injectAux (allChunks : List Chunk) (tid : Nat) (pStart : Option Nat) :
    List Chunk → List String → List Candidate
  | [], _ => []
  | c :: rest, seen =>
    let cid := mkChromaId tid (allChunks.indexOf c)
    if cid ∈ seen then injectAux allChunks tid pStart rest seen
    else chunkToCandidate pStart cid c :: injectAux allChunks tid pStart rest (cid :: seen)

/-- The explicit-fetch step for a recency query: when a latest transcript for
today exists, append its not-yet-retrieved chunks (converted to candidate
dictionaries) to the retrieved list; otherwise leave the list untouched. -/
def injectStep (db : DB) (now : Nat) (retrieved : List Candidate) : List Candidate :=
  match get_latest_transcript_id_for_today db now with
  | none => retrieved
  | some tid =>
    let chunks := get_chunks_by_transcript_id db tid
    let pStart := (get_transcript_by_id db tid).bind (·.start_time)
    let seen0 := (retrieved.filter (fun c => c.id ≠ "")).map (·.id)
    retrieved ++ injectAux chunks tid pStart chunks seen0

/-- The sort key of the recency re-sort:
`datetime.fromisoformat(metadata["transcript_start_time_iso"])` when
present, else `datetime.min` (represented by `0`). -/
def recencyKey (c : Candidate) : Nat := c.tStart.getD 0

/-- `retrieved_chunk_data.sort(key=..., reverse=True)`: the stable descending
sort by `recencyKey`.  `List.insertionSort` with `recencyKey b ≤ recencyKey a`
is exactly Pythons stable sort with `reverse=True`. -/
def sortByRecency (l : List Candidate) : List Candidate :=
  l.insertionSort (fun a b => recencyKey b ≤ recencyKey a)

/-- The recency step of `answer_question` (injection, then — still only for
recency-cued queries — the full re-sort of the combined list). -/
def candidatesAfterRecencyStep (db : DB) (now : Nat) (q : String)
    (retrieved : List Candidate) : List Candidate :=
  let l := if containsWordToday q then injectStep db now retrieved else retrieved
  if containsWordToday q then sortByRecency l else l

/-- The metadata-enrichment loop (`Add Transcript Start Time to Metadata`):
for a candidate whose `transcript_id` is an int, look the transcript up and,
when it has a start time, store it as `transcript_start_time_iso`. -/
def enrichCandidate (db : DB) (c : Candidate) : Candidate :=
  match c.transcript_id with
  | some tid =>
    match get_transcript_by_id db tid with
    | some tr =>
      match tr.start_time with
      | some st => { c with tStart := some st }
      | none => c
    | none => c
  | none => c

/-- The candidate list handed to the token-budget planner: recency step, then
metadata enrichment. -/
def candidatesForBudget (db : DB) (now : Nat) (q : String)
    (retrieved : List Candidate) : List Candidate :=
  (candidatesAfterRecencyStep db now q retrieved).map (enrichCandidate db)

/-! ## Token budget planner -/

/-- The effective context target (`target_tokens`):
`min(context_target_tokens, window - buffer)` when the override is set and
positive (Python truthiness: `ctt and ctt > 0`), else `window - buffer`. -/
def effectiveTarget (s : Settings) : Int :=
  let target_limit := s.model_context_window - s.answer_buffer_tokens
  match s.context_target_tokens with
  | some v => if 0 < v then min v target_limit else target_limit
  | none => target_limit

/-- The fixed token cost: system prompt + rendered question + the constant
formatting estimate (150) + the answer-cue suffix. -/
def fixedTokens (tc : String → Nat) (q : String) : Nat :=
  tc SYSTEM_PROMPT_TEMPLATE + tc ("**Current Question:**\n" ++ q) + 150 +
    tc ("\n**Synthesized Answer:**")

/-- `available_tokens`: `target - fixed`, clamped to `0` when non-positive. -/
def availableTokens (tc : String → Nat) (s : Settings) (q : String) : Nat :=
  (effectiveTarget s - (fixedTokens tc q : Int)).toNat

/-- A history message as rendered for token counting:
`f"{msg.role.capitalize()}: {msg.content}\n"`. -/
def renderMsg (m : ChatMessage) : String :=
  pyCapitalize m.role ++ ": " ++ m.content ++ "\n"

/-- History selection over the newest-first list: include while the running
total still fits, stop at the first message that does not. Returns the
selected messages (still newest-first) and the tokens consumed. -/
def selectHistoryRev (tc : String → Nat) : Nat → List ChatMessage → List ChatMessage × Nat
  | _, [] => ([], 0)
  | avail, m :: rest =>
    let c := tc (renderMsg m)
    if c ≤ avail then
      let r := selectHistoryRev tc (avail - c) rest
      (m :: r.1, c + r.2)
    else ([], 0)

/-- The history-selection stage: walk `reversed(chat_history)` and re-reverse
the selection to restore chronological order. -/
def selectHistory (tc : String → Nat) (avail : Nat) (history : List ChatMessage) :
    List ChatMessage × Nat :=
  let r := selectHistoryRev tc avail history.reverse
  (r.1.reverse, r.2)

/-- `metadata.get('transcript_id', 'N/A')` as rendered in an f-string. -/
def tidStr (c : Candidate) : String :=
  match c.transcript_id with
  | some t => toString t
  | none => "N/A"

/-- The rendered form of a candidate used for token counting:
ordinal prefix + owning-transcript identifier + content + separator. -/
def renderChunkCalc (i : Nat) (c : Candidate) : String :=
  "*" ++ toString (i + 1) ++ ". (Transcript ID: " ++ tidStr c ++ "):*\n" ++
    c.content ++ "\n---\n"

/-- Excerpt selection: walk the candidates in order (with their ordinal `i`
counting from the start of the whole list), include while the rendered cost
fits the remaining budget, stop at the first that does not fit. -/
def selectChunksAux (tc : String → Nat) : Nat → Nat → List Candidate → List Candidate × Nat
  | _, _, [] => ([], 0)
  | i, avail, c :: rest =>
    let cost := tc (renderChunkCalc i c)
    if cost ≤ avail then
      let r := selectChunksAux tc (i + 1) (avail - cost) rest
      (c :: r.1, cost + r.2)
    else ([], 0)

/-- The excerpt-selection stage of the planner. -/
def selectChunks (tc : String → Nat) (avail : Nat) (cands : List Candidate) :
    List Candidate × Nat :=
  selectChunksAux tc 0 avail cands

/-- Both planner stages: history selection against the full available budget,
then excerpt selection against what remains. -/
def plannerSelection (tc : String → Nat) (s : Settings) (q : String)
    (history : List ChatMessage) (cands : List Candidate) :
    (List ChatMessage × Nat) × (List Candidate × Nat) :=
  let avail0 := availableTokens tc s q
  let h := selectHistory tc avail0 history
  (h, selectChunks tc (avail0 - h.2) cands)

/-! ## Prompt assembly -/

/-- A selected excerpt as rendered into the final prompt. -/
def renderChunkPrompt (i : Nat) (c : Candidate) : String :=
  "*" ++ toString (i + 1) ++ ". (Transcript ID: " ++ tidStr c ++ "):*\n" ++ c.content

/-- The context block lines: header, then each selected excerpt followed by a
`---` separator with the trailing separator popped, or the literal
no-excerpts marker when nothing was selected. -/
def contextParts (selChunks : List Candidate) : List String :=
  let base := ["---", "**Transcript Excerpts Used for Context:**"]
  if selChunks = [] then
    base ++ ["No relevant transcript excerpts could fit in the context window."]
  else
    let parts := base ++
      (selChunks.enum.map (fun p => [renderChunkPrompt p.1 p.2, "---"])).flatten
    if parts.getLast? = some "---" then parts.dropLast else parts

/-- The final prompt: system prompt, optional history block, context block,
question block, answer cue, joined by blank lines. -/
def assemblePrompt (selHist : List ChatMessage) (selChunks : List Candidate)
    (q : String) : String :=
  let p1 := [SYSTEM_PROMPT_TEMPLATE]
  let p2 :=
    if selHist = [] then p1
    else p1 ++ [String.intercalate "\n"
      (["---", "**Chat History:**"] ++
        selHist.map (fun m => pyCapitalize m.role ++ ": " ++ m.content))]
  let p3 := p2 ++ [String.intercalate "\n" (contextParts selChunks)]
  let p4 := p3 ++ ["---", "**Current Question:**\n" ++ q, "\n**Synthesized Answer:**"]
  String.intercalate "\n\n" p4

/-! ## Orchestrating engine -/

/-- The fixed date-list phrasings recognized by the special case. -/
def dateListPhrases : List String :=
  ["what days do you have transcript data for",
   "what days do you have data for",
   "which days do you have data for",
   "what dates do you have data for",
   "which dates do you have data for",
   "list available dates",
   "list transcript dates",
   "show transcript dates",
   "available dates",
   "available days"]

/-- `query_text.lower().strip().replace("?", "")`. -/
def normalizeQuery (q : String) : String :=
  removeQuestionMarks (pyStrip (pyLower q))

/-- `is_direct_date_list_query`. -/
def isDateListQuery (q : String) : Bool :=
  dateListPhrases.any (fun p => p = normalizeQuery q)

/-- The fixed fallback answer for an empty retrieval result. -/
def noInfoMsg : String :=
  "I couldn't find any relevant information in the transcripts to answer your question."

/-- The fixed apology returned when the generation call raises. -/
def genErrorMsg : String :=
  "I encountered an error while trying to generate an answer."

/-- The date-list answer (dates abstracted as day numbers). -/
def datesMessage (dates : List Nat) : String :=
  "I have transcript data available for the following dates:\n" ++
    String.intercalate "\n" (dates.map (fun d => "- " ++ toString d))

/-- The planner selection and assembled prompt for the general path, from the
retrieved candidate list (chat history is the hard-coded empty list of the
source). -/
def selectedChunksAndPrompt (tc : String → Nat) (s : Settings) (db : DB)
    (now : Nat) (q : String) (retrieved : List Candidate) :
    List Candidate × String :=
  let cands := candidatesForBudget db now q retrieved
  let avail0 := availableTokens tc s q
  let h := selectHistory tc avail0 ([] : List ChatMessage)
  let sel := (selectChunks tc (avail0 - h.2) cands).1
  (sel, assemblePrompt h.1 sel q)

/-- The result of `answer_question`: the answer string, the chunks actually
used, and — instrumentation of the embedding — the prompt the generation
interface was invoked with (`none` when generation was never called). -/
structure AnswerOutput where
  answer : String
  chunks : List Candidate
  llmPrompt : Option String
deriving DecidableEq

/-- `RAGService.answer_question`. -/
def answerQuestion (tc : String → Nat) (s : Settings)
    (search : List Int → Nat → Option ChromaFilter → List Candidate)
    (embed : String → List Int) (gen : String → Except Unit String)
    (db : DB) (now : Nat) (query_text : String) (k : Nat) : AnswerOutput :=
  if isDateListQuery query_text then
    -- the date-list special case never reaches retrieval or generation
    let distinct_dates := get_distinct_transcript_dates db
    if distinct_dates ≠ [] then
      { answer := datesMessage distinct_dates, chunks := [], llmPrompt := none }
    else
      { answer := "I could not find any dates with transcript data in the database.",
        chunks := [], llmPrompt := none }
  else
    let retrieved := retrieve search embed db now query_text k none
    if retrieved = [] then
      { answer := noInfoMsg, chunks := [], llmPrompt := none }
    else
      let sp := selectedChunksAndPrompt tc s db now query_text retrieved
      match gen sp.2 with
      | Except.ok r => { answer := r, chunks := sp.1, llmPrompt := some sp.2 }
      | Except.error _ =>
        { answer := genErrorMsg, chunks := sp.1, llmPrompt := some sp.2 }

/-! ## Definitions following the specification text (for refinement claims) -/

/-- Modelled from the spec (§4.3 / C7): the retriever passes the embedded
query, `k`, and the caller-supplied filter merged with the today filter when
the recency cue is applicable, to the vector search, returning its result
verbatim. -/
def specRetrieve (search : List Int → Nat → Option ChromaFilter → List Candidate)
    (embed : String → List Int) (db : DB) (now : Nat)
    (query_text : String) (k : Nat)
    (filter_metadata : Option ChromaFilter) : List Candidate :=
  if query_text = "" then []
  else
    let base := filter_metadata.getD []
    let merged :=
      if containsWordToday query_text then
        match getTodayFilter db now with
        | some tf => dictUpdate base tf
        | none => base
      else base
    search (embed query_text) k (if merged = [] then none else some merged)

/-- Modelled from the spec (§3 / C5): effective target =
`min(override, window - reserved)` when the override is set and positive,
else `window - reserved`. -/
def specEffectiveTarget (s : Settings) : Int :=
  match s.context_target_tokens with
  | some v =>
    if 0 < v then min v (s.model_context_window - s.answer_buffer_tokens)
    else s.model_context_window - s.answer_buffer_tokens
  | none => s.model_context_window - s.answer_buffer_tokens

/-- Modelled from the spec (C3): a transcript "exists for the current UTC
day" when its start time falls within that day. -/
def specTranscriptIsToday (now : Nat) (tr : Transcript) : Bool :=
  inRange (startOfDay now) (startOfDay now + dayLen) tr.start_time

/-- Modelled from the spec (C3): does any transcript exist for today? -/
def specExistsTranscriptToday (db : DB) (now : Nat) : Bool :=
  db.transcripts.any (specTranscriptIsToday now)

/-- Modelled from the spec (C3): the single transcript of today with the
latest start time, ties broken by highest transcript identifier. -/
def specLatestTodayTranscript (db : DB) (now : Nat) : Option Transcript :=
  (db.transcripts.filter (specTranscriptIsToday now)).foldl
    (fun acc tr =>
      match acc with
      | none => some tr
      | some b => if betterTranscript tr b then some tr else some b)
    none


/-! ## Planner lemmas -/

/-- The rendered token costs of a candidate list starting at ordinal `i`. -/
def chunkCosts (tc : String → Nat) : Nat → List Candidate → List Nat
  | _, [] => []
  | i, c :: rest => tc (renderChunkCalc i c) :: chunkCosts tc (i + 1) rest

theorem selectHistoryRev_used_le (tc : String → Nat) :
    ∀ (l : List ChatMessage) (avail : Nat), (selectHistoryRev tc avail l).2 ≤ avail := by
  intro l
  induction l with
  | nil => intro avail; simp [selectHistoryRev]
  | cons m rest ih =>
    intro avail
    simp only [selectHistoryRev]
    by_cases h : tc (renderMsg m) ≤ avail
    · simp only [h, if_true]
      have := ih (avail - tc (renderMsg m))
      omega
    · simp [h]

theorem selectHistoryRev_sum (tc : String → Nat) :
    ∀ (l : List ChatMessage) (avail : Nat),
      (((selectHistoryRev tc avail l).1).map (fun m => tc (renderMsg m))).sum =
        (selectHistoryRev tc avail l).2 := by
  intro l
  induction l with
  | nil => intro avail; simp [selectHistoryRev]
  | cons m rest ih =>
    intro avail
    simp only [selectHistoryRev]
    by_cases h : tc (renderMsg m) ≤ avail
    · simp only [h, if_true, List.map_cons, List.sum_cons]
      rw [ih (avail - tc (renderMsg m))]
    · simp [h]

theorem selectHistory_used_le (tc : String → Nat) (avail : Nat) (l : List ChatMessage) :
    (selectHistory tc avail l).2 ≤ avail :=
  selectHistoryRev_used_le tc l.reverse avail

theorem selectHistory_sum (tc : String → Nat) (avail : Nat) (l : List ChatMessage) :
    (((selectHistory tc avail l).1).map (fun m => tc (renderMsg m))).sum =
      (selectHistory tc avail l).2 := by
  simp only [selectHistory, List.map_reverse, List.sum_reverse]
  exact selectHistoryRev_sum tc l.reverse avail

theorem selectChunksAux_used_le (tc : String → Nat) :
    ∀ (l : List Candidate) (i avail : Nat), (selectChunksAux tc i avail l).2 ≤ avail := by
  intro l
  induction l with
  | nil => intro i avail; simp [selectChunksAux]
  | cons c rest ih =>
    intro i avail
    simp only [selectChunksAux]
    by_cases h : tc (renderChunkCalc i c) ≤ avail
    · simp only [h, if_true]
      have := ih (i + 1) (avail - tc (renderChunkCalc i c))
      omega
    · simp [h]

theorem selectChunksAux_sum (tc : String → Nat) :
    ∀ (l : List Candidate) (i avail : Nat),
      (chunkCosts tc i (selectChunksAux tc i avail l).1).sum =
        (selectChunksAux tc i avail l).2 := by
  intro l
  induction l with
  | nil => intro i avail; simp [selectChunksAux, chunkCosts]
  | cons c rest ih =>
    intro i avail
    simp only [selectChunksAux]
    by_cases h : tc (renderChunkCalc i c) ≤ avail
    · simp only [h, if_true, chunkCosts, List.sum_cons]
      rw [ih (i + 1) (avail - tc (renderChunkCalc i c))]
    · simp [h, chunkCosts]

theorem selectChunksAux_prefix_stop (tc : String → Nat) :
    ∀ (l : List Candidate) (i avail : Nat),
      ∃ n, (selectChunksAux tc i avail l).1 = l.take n ∧
        ∀ c ∈ l.get? n,
          avail < (selectChunksAux tc i avail l).2 + tc (renderChunkCalc (i + n) c) := by
  intro l
  induction l with
  | nil =>
    intro i avail
    exact ⟨0, by simp [selectChunksAux], by simp⟩
  | cons c rest ih =>
    intro i avail
    by_cases h : tc (renderChunkCalc i c) ≤ avail
    · obtain ⟨n, h1, h2⟩ := ih (i + 1) (avail - tc (renderChunkCalc i c))
      refine ⟨n + 1, ?_, ?_⟩
      · simp only [selectChunksAux, h, if_true, List.take]
        rw [h1]
      · intro c' hc'
        simp only [List.get?] at hc'
        have h3 := h2 c' hc'
        have h4 : i + 1 + n = i + (n + 1) := by omega
        rw [h4] at h3
        simp only [selectChunksAux, h, if_true]
        omega
    · refine ⟨0, ?_, ?_⟩
      · simp [selectChunksAux, h]
      · intro c' hc'
        simp only [List.get?, Option.mem_def, Option.some.injEq] at hc'
        subst hc'
        simp only [selectChunksAux, h, if_false, Nat.add_zero]
        omega

/-- C2: excerpt selection is a contiguous prefix of the candidate list in its
current order: the planner includes candidates in order while their rendered
cost (`renderChunkCalc`: ordinal prefix + owning-transcript identifier +
content + separator) fits, and stops permanently at the first candidate that
does not fit — the candidate right after the selected prefix (when one
exists) exceeds the remaining budget, and no later candidate is included. -/
theorem excerpt_selection_prefix_and_stop (tc : String → Nat) (avail : Nat)
    (cands : List Candidate) :
    ∃ n, (selectChunks tc avail cands).1 = cands.take n ∧
      ∀ c ∈ cands.get? n,
        avail < (selectChunks tc avail cands).2 + tc (renderChunkCalc n c) := by
  obtain ⟨n, h1, h2⟩ := selectChunksAux_prefix_stop tc cands 0 avail
  refine ⟨n, h1, ?_⟩
  intro c hc
  have := h2 c hc
  simpa using this

/-- C1 (counterexample): with the zero token counter, window 10, reserve 0
and no override, the fixed cost is the constant formatting estimate 150,
which alone exceeds the effective target 10 — so the sum of selected history
costs, selected excerpt costs and the fixed cost exceeds the effective
target. -/
theorem budget_invariant_fails_when_fixed_exceeds_target :
    ¬ (((((plannerSelection (fun _ => 0) ⟨10, 0, none⟩ "" [] []).1.1).map
          (fun m => (fun _ => 0) (renderMsg m))).sum : Int) +
        ((chunkCosts (fun _ => 0) 0 ((plannerSelection (fun _ => 0) ⟨10, 0, none⟩ "" [] []).2.1)).sum : Int) +
        (fixedTokens (fun _ => 0) "" : Int) ≤ effectiveTarget ⟨10, 0, none⟩) := by
  decide

/-- C1 (amended): whenever the fixed instruction/question/answer-cue token
cost does not exceed the effective target, the sum of the rendered token
costs of the selected history messages, plus the rendered token costs of the
selected excerpts, plus the fixed cost, never exceeds the effective target.
(When the fixed cost exceeds the target, the code clamps the available
budget to zero, selects nothing, and proceeds anyway.) -/
theorem budget_total_within_target_of_fixed_le (tc : String → Nat) (s : Settings)
    (q : String) (history : List ChatMessage) (cands : List Candidate)
    (h : (fixedTokens tc q : Int) ≤ effectiveTarget s) :
    ((((plannerSelection tc s q history cands).1.1).map
        (fun m => tc (renderMsg m))).sum : Int) +
      ((chunkCosts tc 0 ((plannerSelection tc s q history cands).2.1)).sum : Int) +
      (fixedTokens tc q : Int) ≤ effectiveTarget s := by
  have havail : (availableTokens tc s q : Int) =
      effectiveTarget s - (fixedTokens tc q : Int) := by
    simp only [availableTokens]
    omega
  have hH := selectHistory_used_le tc (availableTokens tc s q) history
  have hHs := selectHistory_sum tc (availableTokens tc s q) history
  have hC := selectChunksAux_used_le tc cands 0
    (availableTokens tc s q - (selectHistory tc (availableTokens tc s q) history).2)
  have hCs := selectChunksAux_sum tc cands 0
    (availableTokens tc s q - (selectHistory tc (availableTokens tc s q) history).2)
  simp only [plannerSelection, selectChunks]
  rw [hHs, hCs]
  omega

/-- C1 (witness for the amended theorem): a concrete budget where the fixed
cost (150) fits the target (1000) and the bound holds. -/
theorem budget_total_within_target_witness :
    ((((plannerSelection (fun _ => 0) ⟨1000, 0, none⟩ "" [] []).1.1).map
        (fun m => (fun _ => 0) (renderMsg m))).sum : Int) +
      ((chunkCosts (fun _ => 0) 0 ((plannerSelection (fun _ => 0) ⟨1000, 0, none⟩ "" [] []).2.1)).sum : Int) +
      (fixedTokens (fun _ => 0) "" : Int) ≤ effectiveTarget ⟨1000, 0, none⟩ :=
  budget_total_within_target_of_fixed_le (fun _ => 0) ⟨1000, 0, none⟩ "" [] [] (by decide)

/-! ## Recency sort and injection theorems -/

/-- C4: for a recency-cued query the engine applies `sortByRecency` to the
entire combined (post-injection) candidate list; the result is a permutation
of that list that is pairwise sorted by descending owning-transcript start
time, where a candidate with a missing start time gets the oldest possible
key (`recencyKey` maps `none` to `0`, the representation of `datetime.min`),
so such candidates sort behind every strictly newer one. -/
theorem recency_sort_perm_and_sorted (db : DB) (now : Nat) (q : String)
    (retrieved : List Candidate) (hq : containsWordToday q = true) :
    candidatesAfterRecencyStep db now q retrieved =
      sortByRecency (injectStep db now retrieved) ∧
    List.Perm (sortByRecency (injectStep db now retrieved)) (injectStep db now retrieved) ∧
    List.Pairwise (fun a b => recencyKey b ≤ recencyKey a)
      (sortByRecency (injectStep db now retrieved)) := by
  refine ⟨by simp [candidatesAfterRecencyStep, hq], List.perm_insertionSort _ _, ?_⟩
  haveI : IsTotal Candidate (fun a b => recencyKey b ≤ recencyKey a) :=
    ⟨fun a b => le_total (recencyKey b) (recencyKey a)⟩
  haveI : IsTrans Candidate (fun a b => recencyKey b ≤ recencyKey a) :=
    ⟨fun _ _ _ hab hbc => le_trans hbc hab⟩
  exact List.sorted_insertionSort _ _

/-- C4 (witness): the theorem applied to a concrete recency-cued call. -/
theorem recency_sort_perm_and_sorted_witness :
    candidatesAfterRecencyStep ⟨[], []⟩ 0 "today"
        [⟨"a", "", none, some 5⟩, ⟨"b", "", none, some 9⟩] =
      sortByRecency (injectStep ⟨[], []⟩ 0
        [⟨"a", "", none, some 5⟩, ⟨"b", "", none, some 9⟩]) ∧
    List.Perm
      (sortByRecency (injectStep ⟨[], []⟩ 0
        [⟨"a", "", none, some 5⟩, ⟨"b", "", none, some 9⟩]))
      (injectStep ⟨[], []⟩ 0
        [⟨"a", "", none, some 5⟩, ⟨"b", "", none, some 9⟩]) ∧
    List.Pairwise (fun a b => recencyKey b ≤ recencyKey a)
      (sortByRecency (injectStep ⟨[], []⟩ 0
        [⟨"a", "", none, some 5⟩, ⟨"b", "", none, some 9⟩])) :=
  recency_sort_perm_and_sorted ⟨[], []⟩ 0 "today"
    [⟨"a", "", none, some 5⟩, ⟨"b", "", none, some 9⟩] (by decide)

/-- C5: the effective context target equals the specification formula
(`min(override, window - reserved)` when the override is set and positive,
else `window - reserved`), and the budget actually used for selection equals
the one obtained by first clamping a negative effective target to zero —
so whenever the effective target is negative, selection behaves exactly as
if it had been clamped to zero before any selection took place. -/
theorem effective_target_formula_and_clamp (tc : String → Nat) (s : Settings)
    (q : String) :
    effectiveTarget s = specEffectiveTarget s ∧
    availableTokens tc s q =
      (max (effectiveTarget s) 0 - (fixedTokens tc q : Int)).toNat := by
  constructor
  · cases h : s.context_target_tokens <;>
      simp [effectiveTarget, specEffectiveTarget, h]
  · simp only [availableTokens]
    omega

/-- Helper for C6: the stable descending sort leaves a list whose keys are
all equal (in particular: all missing) unchanged. -/
theorem sortByRecency_const_key :
    ∀ (l : List Candidate), (∀ c ∈ l, recencyKey c = 0) → sortByRecency l = l := by
  intro l
  induction l with
  | nil => intro _; rfl
  | cons a l ih =>
    intro h
    have ha : recencyKey a = 0 := h a (by simp)
    have hl : ∀ c ∈ l, recencyKey c = 0 := fun c hc => h c (by simp [hc])
    have hrec : sortByRecency l = l := ih hl
    simp only [sortByRecency, List.insertionSort] at hrec ⊢
    rw [hrec]
    cases l with
    | nil => rfl
    | cons b l2 =>
      have hb : recencyKey b = 0 := hl b (by simp)
      simp [List.orderedInsert, ha, hb]

/-- C6: for a recency-cued query with no transcript for today, the recency
step (injection followed by the re-sort) leaves the retrieved candidate
list — its membership and its order — exactly as retrieval produced it.
The hypothesis that the retrieved candidates carry no
`transcript_start_time_iso` metadata reflects what the vector store returns
in this pipeline: ingestion stores only `transcript_id` in Chroma metadata
(`ingest/ingestion_service.py`), so at sort time every retrieved candidate
has the default key and the stable sort is the identity. -/
theorem no_today_transcript_recency_step_noop (db : DB) (now : Nat) (q : String)
    (retrieved : List Candidate) (hq : containsWordToday q = true)
    (hnone : get_latest_transcript_id_for_today db now = none)
    (hts : ∀ c ∈ retrieved, c.tStart = none) :
    candidatesAfterRecencyStep db now q retrieved = retrieved := by
  have hinj : injectStep db now retrieved = retrieved := by
    simp [injectStep, hnone]
  simp only [candidatesAfterRecencyStep, hq, if_true, hinj]
  exact sortByRecency_const_key retrieved (fun c hc => by simp [recencyKey, hts c hc])

/-- C6 (witness): a concrete recency-cued call on a store with no transcript
for today leaves the retrieved list untouched. -/
theorem no_today_transcript_recency_step_noop_witness :
    candidatesAfterRecencyStep ⟨[⟨1, some 100000⟩], []⟩ 50 "today"
        [⟨"x", "c", none, none⟩, ⟨"y", "d", some 1, none⟩] =
      [⟨"x", "c", none, none⟩, ⟨"y", "d", some 1, none⟩] :=
  no_today_transcript_recency_step_noop ⟨[⟨1, some 100000⟩], []⟩ 50 "today"
    [⟨"x", "c", none, none⟩, ⟨"y", "d", some 1, none⟩]
    (by decide) (by decide) (by decide)

/-! ## Recency injection coverage (C3) -/

/-- Helper for C3: every chunk visited by the injection loop ends up — under
its generated ChromaStore id — either in the already-seen id set or among
the ids of the emitted candidates. -/
theorem injectAux_mem (allChunks : List Chunk) (tid : Nat) (pStart : Option Nat) :
    ∀ (rest : List Chunk) (seen : List String), ∀ c ∈ rest,
      mkChromaId tid (allChunks.indexOf c) ∈ seen ∨
        mkChromaId tid (allChunks.indexOf c) ∈
          (injectAux allChunks tid pStart rest seen).map Candidate.id := by
  intro rest
  induction rest with
  | nil => intro seen c hc; cases hc
  | cons c0 r ih =>
    intro seen c hc
    by_cases hmem : mkChromaId tid (allChunks.indexOf c0) ∈ seen
    · rcases List.mem_cons.mp hc with hceq | hcr
      · subst hceq
        exact Or.inl hmem
      · have := ih seen c hcr
        simpa [injectAux, hmem] using this
    · rcases List.mem_cons.mp hc with hceq | hcr
      · subst hceq
        refine Or.inr ?_
        simp [injectAux, hmem, chunkToCandidate]
      · rcases ih (mkChromaId tid (allChunks.indexOf c0) :: seen) c hcr with hin | hout
        · rcases List.mem_cons.mp hin with heq | hseen
          · refine Or.inr ?_
            rw [heq]
            simp [injectAux, hmem, chunkToCandidate]
          · exact Or.inl hseen
        · refine Or.inr ?_
          simp only [injectAux, hmem, if_false, List.map_cons]
          exact List.mem_cons_of_mem _ hout

/-- Helper: metadata enrichment never changes a candidate id. -/
theorem enrichCandidate_id (db : DB) (c : Candidate) :
    (enrichCandidate db c).id = c.id := by
  unfold enrichCandidate
  repeat' split
  all_goals rfl

/-- Helper: membership among the ids of the planner input follows from
membership among the ids of the post-injection list (the sort permutes, the
enrichment keeps ids). -/
theorem candidatesForBudget_ids (db : DB) (now : Nat) (q : String)
    (retrieved : List Candidate) (x : String)
    (hx : x ∈ (candidatesAfterRecencyStep db now q retrieved).map Candidate.id) :
    x ∈ (candidatesForBudget db now q retrieved).map Candidate.id := by
  simp only [candidatesForBudget, List.map_map]
  have hmap : (candidatesAfterRecencyStep db now q retrieved).map
      (Candidate.id ∘ enrichCandidate db) =
      (candidatesAfterRecencyStep db now q retrieved).map Candidate.id :=
    List.map_congr_left (fun c _ => enrichCandidate_id db c)
  rw [hmap]
  exact hx

/-- C3 (counterexample): the claim as stated fails.  Take `now = 50` on day
`[0, 86400)` and a store holding a single transcript (id 1, start time 100)
with one chunk.  The transcript exists for the current UTC day and is its
latest transcript in the claimed sense, and the query carries the recency
cue — yet because `get_latest_transcript_id_for_today` restricts to
`start_time < now`, nothing is injected and the chunk id `1_0` is absent
from the candidate list handed to the budget planner. -/
theorem recency_injection_misses_future_start_transcript :
    containsWordToday "what happened today" = true ∧
    specExistsTranscriptToday ⟨[⟨1, some 100⟩], [⟨1, 1, "hello"⟩]⟩ 50 = true ∧
    specLatestTodayTranscript ⟨[⟨1, some 100⟩], [⟨1, 1, "hello"⟩]⟩ 50 =
      some ⟨1, some 100⟩ ∧
    get_chunks_by_transcript_id ⟨[⟨1, some 100⟩], [⟨1, 1, "hello"⟩]⟩ 1 =
      [⟨1, 1, "hello"⟩] ∧
    mkChromaId 1 0 ∉
      (candidatesForBudget ⟨[⟨1, some 100⟩], [⟨1, 1, "hello"⟩]⟩ 50
        "what happened today" [⟨"x", "c", none, none⟩]).map Candidate.id := by
  decide

/-- C3 (amended): for every recency-cued query, whenever the code finds a
latest transcript for today (some transcript has a start time within
`[start-of-UTC-day, current instant)`; the one with the latest start time,
ties broken by highest id, is chosen), every excerpt of that transcript
appears — deduplicated by its generated ChromaStore excerpt identifier —
in the candidate list handed to the budget planner, even when the
similarity search did not return it. -/
theorem recency_injection_covers_latest_transcript_chunks (db : DB) (now : Nat)
    (q : String) (retrieved : List Candidate) (tid : Nat)
    (hq : containsWordToday q = true)
    (hlat : get_latest_transcript_id_for_today db now = some tid) :
    ∀ c ∈ get_chunks_by_transcript_id db tid,
      mkChromaId tid ((get_chunks_by_transcript_id db tid).indexOf c) ∈
        (candidatesForBudget db now q retrieved).map Candidate.id := by
  intro c hc
  have h1 : mkChromaId tid ((get_chunks_by_transcript_id db tid).indexOf c) ∈
      (injectStep db now retrieved).map Candidate.id := by
    simp only [injectStep, hlat]
    rcases injectAux_mem (get_chunks_by_transcript_id db tid) tid
        ((get_transcript_by_id db tid).bind (fun tr => tr.start_time))
        (get_chunks_by_transcript_id db tid)
        ((retrieved.filter (fun x => x.id ≠ "")).map (fun x => x.id)) c hc with
      hseen | hout
    · rw [List.map_append]
      refine List.mem_append.mpr (Or.inl ?_)
      rcases List.mem_map.mp hseen with ⟨cand, hcand, hid⟩
      exact hid ▸ List.mem_map_of_mem Candidate.id (List.mem_of_mem_filter hcand)
    · rw [List.map_append]
      exact List.mem_append.mpr (Or.inr hout)
  have h2 : mkChromaId tid ((get_chunks_by_transcript_id db tid).indexOf c) ∈
      (sortByRecency (injectStep db now retrieved)).map Candidate.id := by
    have hp : List.Perm
        ((sortByRecency (injectStep db now retrieved)).map Candidate.id)
        ((injectStep db now retrieved).map Candidate.id) :=
      (List.perm_insertionSort _ _).map Candidate.id
    exact hp.mem_iff.mpr h1
  apply candidatesForBudget_ids
  simpa [candidatesAfterRecencyStep, hq] using h2

/-- C3 (witness for the amended theorem): a concrete store where the latest
transcript for today exists; its single chunk id `1_0` reaches the planner
input even though retrieval returned nothing of it. -/
theorem recency_injection_covers_latest_transcript_chunks_witness :
    mkChromaId 1
      ((get_chunks_by_transcript_id ⟨[⟨1, some 10⟩], [⟨1, 1, "a"⟩]⟩ 1).indexOf
        ⟨1, 1, "a"⟩) ∈
      (candidatesForBudget ⟨[⟨1, some 10⟩], [⟨1, 1, "a"⟩]⟩ 50 "today"
        [⟨"x", "c", none, none⟩]).map Candidate.id :=
  recency_injection_covers_latest_transcript_chunks ⟨[⟨1, some 10⟩], [⟨1, 1, "a"⟩]⟩
    50 "today" [⟨"x", "c", none, none⟩] 1 (by decide) (by decide) ⟨1, 1, "a"⟩
    (by decide)

/-! ## Retriever theorems (C7) -/

/-- C7 (counterexample): the claim as stated fails.  With a caller-supplied
filter on key `foo` and a store holding one transcript for today, the spec
behaviour (pass the caller filter merged with the today filter) and the code
behaviour (pass only the recomputed today filter, ignoring the caller
filter) give different search results, witnessed by a search function that
keys on the presence of `foo`. -/
theorem retrieve_ignores_caller_filter_counterexample :
    retrieve
      (fun _ _ f =>
        match f with
        | some fl =>
          if fl.any (fun kv => kv.fst = "foo")
          then [⟨"a", "", none, none⟩] else [⟨"b", "", none, none⟩]
        | none => [])
      (fun _ => []) ⟨[⟨1, some 10⟩], []⟩ 50 "today" 1
      (some [("foo", FilterVal.tag 7)]) ≠
    specRetrieve
      (fun _ _ f =>
        match f with
        | some fl =>
          if fl.any (fun kv => kv.fst = "foo")
          then [⟨"a", "", none, none⟩] else [⟨"b", "", none, none⟩]
        | none => [])
      (fun _ => []) ⟨[⟨1, some 10⟩], []⟩ 50 "today" 1
      (some [("foo", FilterVal.tag 7)]) := by
  decide

/-- C7 (amended): for every non-empty query, the retriever embeds the query
and passes the resulting vector, `k`, and the today filter — recomputed
unconditionally from the relational store, with the caller-supplied filter
ignored (the merged filter is computed but never used) — to the
vector-similarity search, and returns the search result verbatim. -/
theorem retrieve_passes_today_filter_only
    (search : List Int → Nat → Option ChromaFilter → List Candidate)
    (embed : String → List Int) (db : DB) (now : Nat) (q : String) (k : Nat)
    (fm : Option ChromaFilter) (hq : q ≠ "") :
    retrieve search embed db now q k fm =
      search (embed q) k (getTodayFilter db now) := by
  simp [retrieve, hq]

/-- C7 (witness for the amended theorem). -/
theorem retrieve_passes_today_filter_only_witness :
    retrieve (fun _ _ _ => [⟨"a", "", none, none⟩]) (fun _ => [0]) ⟨[], []⟩ 0
      "hi" 3 none = [⟨"a", "", none, none⟩] := by
  rw [retrieve_passes_today_filter_only (fun _ _ _ => [⟨"a", "", none, none⟩])
    (fun _ => [0]) ⟨[], []⟩ 0 "hi" 3 none (by decide)]

/-! ## Orchestrating-engine theorems (C8, C9, C10) -/

/-- C8: on the general (non-date-list) path, when retrieval returns an empty
candidate list, `answer_question` returns the fixed no-relevant-information
message with an empty excerpts-used list, and the generation interface is
never invoked (`llmPrompt = none`). -/
theorem empty_retrieval_fallback_no_generation (tc : String → Nat) (s : Settings)
    (search : List Int → Nat → Option ChromaFilter → List Candidate)
    (embed : String → List Int) (gen : String → Except Unit String)
    (db : DB) (now : Nat) (q : String) (k : Nat)
    (hd : isDateListQuery q = false)
    (hr : retrieve search embed db now q k none = []) :
    answerQuestion tc s search embed gen db now q k =
      { answer := noInfoMsg, chunks := [], llmPrompt := none } := by
  simp [answerQuestion, hd, hr]

/-- C8 (witness): a concrete call whose vector search returns nothing. -/
theorem empty_retrieval_fallback_no_generation_witness :
    answerQuestion (fun _ => 0) ⟨10, 0, none⟩ (fun _ _ _ => []) (fun _ => [])
      (fun _ => Except.ok "") ⟨[], []⟩ 0 "hello" 1 =
      { answer := noInfoMsg, chunks := [], llmPrompt := none } :=
  empty_retrieval_fallback_no_generation (fun _ => 0) ⟨10, 0, none⟩
    (fun _ _ _ => []) (fun _ => []) (fun _ => Except.ok "") ⟨[], []⟩ 0 "hello" 1
    (by decide) (by decide)

/-- C9: on the general path with a non-empty retrieval, when the generation
call fails, `answer_question` catches the failure and returns the fixed
apology string together with exactly the excerpts the planner had selected
before the failure; no exception propagates (the result is total) and the
selected-excerpts list is the same one a successful call would have
returned. -/
theorem generation_failure_apology_with_selected_chunks (tc : String → Nat)
    (s : Settings)
    (search : List Int → Nat → Option ChromaFilter → List Candidate)
    (embed : String → List Int) (gen : String → Except Unit String)
    (db : DB) (now : Nat) (q : String) (k : Nat)
    (hd : isDateListQuery q = false)
    (hr : retrieve search embed db now q k none ≠ [])
    (hg : gen (selectedChunksAndPrompt tc s db now q
        (retrieve search embed db now q k none)).2 = Except.error ()) :
    answerQuestion tc s search embed gen db now q k =
      { answer := genErrorMsg,
        chunks := (selectedChunksAndPrompt tc s db now q
          (retrieve search embed db now q k none)).1,
        llmPrompt := some (selectedChunksAndPrompt tc s db now q
          (retrieve search embed db now q k none)).2 } := by
  simp only [answerQuestion, hd, Bool.false_eq_true, if_false]
  rw [if_neg hr, hg]

/-- C9 (witness): a concrete call whose generation interface always fails. -/
theorem generation_failure_apology_with_selected_chunks_witness :
    answerQuestion (fun _ => 0) ⟨1000, 0, none⟩
      (fun _ _ _ => [⟨"b", "c", none, none⟩]) (fun _ => [])
      (fun _ => Except.error ()) ⟨[], []⟩ 0 "hello" 1 =
      { answer := genErrorMsg,
        chunks := (selectedChunksAndPrompt (fun _ => 0) ⟨1000, 0, none⟩ ⟨[], []⟩ 0
          "hello" (retrieve (fun _ _ _ => [⟨"b", "c", none, none⟩]) (fun _ => [])
            ⟨[], []⟩ 0 "hello" 1 none)).1,
        llmPrompt := some (selectedChunksAndPrompt (fun _ => 0) ⟨1000, 0, none⟩
          ⟨[], []⟩ 0 "hello" (retrieve (fun _ _ _ => [⟨"b", "c", none, none⟩])
            (fun _ => []) ⟨[], []⟩ 0 "hello" 1 none)).2 } :=
  generation_failure_apology_with_selected_chunks (fun _ => 0) ⟨1000, 0, none⟩
    (fun _ _ _ => [⟨"b", "c", none, none⟩]) (fun _ => [])
    (fun _ => Except.error ()) ⟨[], []⟩ 0 "hello" 1
    (by decide) (by decide) rfl

/-- C10 (implicit): the chat-history source of `answer_question` is the
hard-coded empty list, so the history-selection stage selects nothing and
consumes zero budget tokens, and the assembled prompt is exactly the
history-free assembly (system prompt, context block, question, answer cue —
no chat-history block), for every call. -/
theorem history_hardcoded_empty_no_history_block (tc : String → Nat)
    (s : Settings) (db : DB) (now : Nat) (q : String)
    (retrieved : List Candidate) :
    selectHistory tc (availableTokens tc s q) ([] : List ChatMessage) = ([], 0) ∧
    (selectedChunksAndPrompt tc s db now q retrieved).2 =
      assemblePrompt [] (selectedChunksAndPrompt tc s db now q retrieved).1 q ∧
    assemblePrompt [] (selectedChunksAndPrompt tc s db now q retrieved).1 q =
      String.intercalate "\n\n"
        ([SYSTEM_PROMPT_TEMPLATE] ++
          [String.intercalate "\n"
            (contextParts (selectedChunksAndPrompt tc s db now q retrieved).1)] ++
          ["---", "**Current Question:**\n" ++ q, "\n**Synthesized Answer:**"]) := by
  refine ⟨rfl, rfl, ?_⟩
  simp [assemblePrompt]

end TranscriptEngine
